import Mathlib

/-!
Verification of the `nate` HTML-generation library (src/nate/tags.py) against
its natural-language specification.

The embedding is shallow: each Python class of tags.py becomes a constructor
of the inductive `Nate.BaseTag`, and the generator-based serialization
(`BaseTag.to_html`, which joins the fragments yielded by `_to_html`) becomes
a structurally recursive Lean function producing the same concatenation.
Python's dynamic typing of the `children` argument (a `BaseTag`, a `str`, an
iterable of those, or any other runtime value) is modelled by the inductive
`FullTagChildren`, whose `other` constructor stands for a value that is none
of `BaseTag`, `str`, `Iterable` — mirroring the `isinstance` chain of
`FullTag._to_html`.  Likewise `AttrVal.other` stands for an attribute value
that is neither a `str` nor `None` (the `isinstance(v, str)` test in
`attr_to_html` is the only test performed).
-/

namespace Nate

/-- The double-quote character (written via its code point to keep the
source free of quote-bearing character literals). -/
def quoteChar : Char := Char.ofNat 34

/-- The apostrophe character. -/
def aposChar : Char := Char.ofNat 39

/-- Per-character replacement performed by Python's `html.escape(s, quote=True)`
(the function imported at the top of tags.py and applied to text children and
to string attribute values).  `html.escape` is a chain of `str.replace` calls,
`&` first; since no replacement string contains a character that a later
`replace` rewrites (the `&` of `&lt;` etc. is introduced after the `&` pass),
the chain is equivalent to this single left-to-right character map. -/
def escapeChar (c : Char) : String :=
  if c = '&' then "&amp;"
  else if c = '<' then "&lt;"
  else if c = '>' then "&gt;"
  else if c = quoteChar then "&quot;"
  else if c = aposChar then "&#x27;"
  else String.singleton c

/-- Characterwise escaping of a list of characters, the worker of `escape`. -/
def escapeList : List Char → String
  | [] => ""
  | c :: cs => escapeChar c ++ escapeList cs

/-- Python's `html.escape(s, quote=True)`: the five HTML-significant
characters are replaced, every other character is kept. -/
def escape (s : String) : String := escapeList s.data

/-- The runtime value sitting in an attribute dict entry.  tags.py annotates
`Attr = Dict[str, Union[str, None]]`, but `attr_to_html` only ever tests
`isinstance(v, str)`; `other` models a value that is neither a `str` nor
`None` (e.g. an `int`), which that test also sends to the bare-name branch. -/
inductive AttrVal where
  | str (s : String)
  | none
  | other

/-- An attribute mapping: `**attr` keyword dicts iterate in insertion order,
modelled as an association list in that order. -/
abbrev Attr := List (String × AttrVal)

/-- The `Class = Union[str, Iterable[str]]` alias of tags.py: a single class
string, or an iterable of class names (materialised here as a list, in
iteration order). -/
inductive Class where
  | str (s : String)
  | seq (ss : List String)

mutual
/-- The node model of tags.py.  The abstract base class `BaseTag` and its four
subclasses `SelfClosingTag`, `FullTag`, `FullTagWithPrefix` and
`DangerousHTML` become one closed inductive; field order follows each
dataclass (`FullTagWithPrefix` appends its `prefix` field, here `pfx`). -/
inductive BaseTag where
  | SelfClosingTag (tag : String) (attr : List (String × AttrVal)) (class_ : Class)
  | FullTag (tag : String) (children : FullTagChildren) (class_ : Class)
      (attr : List (String × AttrVal))
  | FullTagWithPrefix (tag : String) (children : FullTagChildren) (class_ : Class)
      (attr : List (String × AttrVal)) (pfx : String)
  | DangerousHTML (html : String)

/-- The runtime value of a `FullTag.children` field, mirroring the
`isinstance` chain of `FullTag._to_html`: a `BaseTag`, a `str`, an iterable
of children, or (`other`) any value that is none of those — the chain then
falls through and yields nothing. -/
inductive FullTagChildren where
  | node (t : BaseTag)
  | str (s : String)
  | seq (cs : ChildList)
  | other

/-- One element of a children iterable: the loop body of `FullTag._to_html`
renders a `BaseTag`, escapes a `str`, and silently skips anything else
(`other`). -/
inductive ChildItem where
  | node (t : BaseTag)
  | str (s : String)
  | other

/-- A children iterable, in iteration order. -/
inductive ChildList where
  | nil
  | cons (c : ChildItem) (cs : ChildList)
end

/-- `class_to_html` of tags.py: a single string is used as-is, an iterable is
joined with single spaces; an empty result emits nothing, otherwise
` class="` + the joined string (unescaped) + `"`. -/
def class_to_html (class_ : Class) : String :=
  let final := match class_ with
    | Class.str s => s
    | Class.seq ss => String.intercalate " " ss
  if final = "" then "" else " class=\"" ++ final ++ "\""

/-- `attr_to_html` of tags.py: for each entry in insertion order, a space and
the (unescaped) name; when the value is a string additionally `="` + the
escaped value + `"`; for any other value (None, or anything failing
`isinstance(v, str)`) nothing further.  The `len(attr) == 0` early return of
the source is the `[]` case. -/
def attr_to_html : List (String × AttrVal) → String
  | [] => ""
  | (k, v) :: rest =>
    " " ++ k ++ (match v with
      | AttrVal.str s => "=\"" ++ escape s ++ "\""
      | _ => "") ++ attr_to_html rest

/-- The fragment shape produced by `FullTag._to_html` once its children have
been rendered to `body`: start tag (with class, then other attributes), body,
end tag.  `FullTagWithPrefix._to_html` delegates to this via `super()`. -/
def full_tag_render (tag : String) (body : String) (class_ : Class)
    (attr : List (String × AttrVal)) : String :=
  "<" ++ tag ++ class_to_html class_ ++ attr_to_html attr ++ ">" ++ body
    ++ "</" ++ tag ++ ">"

mutual
/-- `BaseTag.to_html` of tags.py: `"".join(self._to_html())`, the joined
fragment stream of the appropriate `_to_html` override. -/
def BaseTag.to_html : BaseTag → String
  | BaseTag.SelfClosingTag tag attr class_ =>
    "<" ++ tag ++ class_to_html class_ ++ attr_to_html attr ++ "/>"
  | BaseTag.FullTag tag children class_ attr =>
    full_tag_render tag (children_to_html children) class_ attr
  | BaseTag.FullTagWithPrefix tag children class_ attr pfx =>
    pfx ++ full_tag_render tag (children_to_html children) class_ attr
  | BaseTag.DangerousHTML html => html

/-- The children-dispatch of `FullTag._to_html` (lines 86–95 of tags.py):
a `BaseTag` child is rendered, a `str` child is escaped, an iterable is
walked, and any other value yields nothing. -/
def children_to_html : FullTagChildren → String
  | FullTagChildren.node t => BaseTag.to_html t
  | FullTagChildren.str s => escape s
  | FullTagChildren.seq cs => child_list_to_html cs
  | FullTagChildren.other => ""

/-- The loop body of `FullTag._to_html` for one element of an iterable. -/
def child_to_html : ChildItem → String
  | ChildItem.node t => BaseTag.to_html t
  | ChildItem.str s => escape s
  | ChildItem.other => ""

/-- The loop of `FullTag._to_html` over an iterable of children. -/
def child_list_to_html : ChildList → String
  | ChildList.nil => ""
  | ChildList.cons c cs => child_to_html c ++ child_list_to_html cs
end

/-- The `Meta` wrapper of tags.py: `SelfClosingTag(tag="meta", class_=class_, attr=attr)`. -/
def Meta (class_ : Class) (attr : Attr) : BaseTag :=
  BaseTag.SelfClosingTag "meta" attr class_

/-- The `P` wrapper of tags.py. -/
def P (children : FullTagChildren) (class_ : Class) (attr : Attr) : BaseTag :=
  BaseTag.FullTag "p" children class_ attr

/-- The `Head` wrapper of tags.py. -/
def Head (children : FullTagChildren) (class_ : Class) (attr : Attr) : BaseTag :=
  BaseTag.FullTag "head" children class_ attr

/-- The `Body` wrapper of tags.py. -/
def Body (children : FullTagChildren) (class_ : Class) (attr : Attr) : BaseTag :=
  BaseTag.FullTag "body" children class_ attr

/-- The `Html` wrapper of tags.py: a `FullTagWithPrefix` with tag `html` and
the doctype as its prefix. -/
def Html (children : FullTagChildren) (class_ : Class) (attr : Attr) : BaseTag :=
  BaseTag.FullTagWithPrefix "html" children class_ attr "<!DOCTYPE html>"

/-- The children value stored in a node, when the node's class has a
`children` field (`FullTag` and its subclass `FullTagWithPrefix`). -/
def childrenOf : BaseTag → Option FullTagChildren
  | BaseTag.FullTag _ children _ _ => some children
  | BaseTag.FullTagWithPrefix _ children _ _ _ => some children
  | _ => none

/-- A node or children value to be serialized: the subjects of the
serialization relation `Emits`. -/
inductive RTerm where
  | tag (t : BaseTag)
  | children (c : FullTagChildren)
  | child (c : ChildItem)
  | clist (cs : ChildList)

/-- The serialization of tags.py as a relation: `Emits r s` holds when one
run of the `_to_html` generators over `r`, joined, can produce `s`.  There is
exactly one rule per syntactic case, so the relation is deterministic — this
is the object of the determinism claim. -/
inductive Emits : RTerm → String → Prop where
  | selfClosing (tag : String) (attr : Attr) (class_ : Class) :
      Emits (RTerm.tag (BaseTag.SelfClosingTag tag attr class_))
        ("<" ++ tag ++ class_to_html class_ ++ attr_to_html attr ++ "/>")
  | fullTag (tag : String) (ch : FullTagChildren) (class_ : Class) (attr : Attr)
      (s : String) :
      Emits (RTerm.children ch) s →
      Emits (RTerm.tag (BaseTag.FullTag tag ch class_ attr)) (full_tag_render tag s class_ attr)
  | withPfx (tag : String) (ch : FullTagChildren) (class_ : Class) (attr : Attr)
      (pfx s : String) :
      Emits (RTerm.tag (BaseTag.FullTag tag ch class_ attr)) s →
      Emits (RTerm.tag (BaseTag.FullTagWithPrefix tag ch class_ attr pfx)) (pfx ++ s)
  | dangerous (m : String) : Emits (RTerm.tag (BaseTag.DangerousHTML m)) m
  | chNode (t : BaseTag) (s : String) :
      Emits (RTerm.tag t) s → Emits (RTerm.children (FullTagChildren.node t)) s
  | chStr (s : String) : Emits (RTerm.children (FullTagChildren.str s)) (escape s)
  | chSeq (cs : ChildList) (s : String) :
      Emits (RTerm.clist cs) s → Emits (RTerm.children (FullTagChildren.seq cs)) s
  | chOther : Emits (RTerm.children FullTagChildren.other) ""
  | cNode (t : BaseTag) (s : String) :
      Emits (RTerm.tag t) s → Emits (RTerm.child (ChildItem.node t)) s
  | cStr (s : String) : Emits (RTerm.child (ChildItem.str s)) (escape s)
  | cOther : Emits (RTerm.child ChildItem.other) ""
  | lNil : Emits (RTerm.clist ChildList.nil) ""
  | lCons (c : ChildItem) (cs : ChildList) (s₁ s₂ : String) :
      Emits (RTerm.child c) s₁ → Emits (RTerm.clist cs) s₂ →
      Emits (RTerm.clist (ChildList.cons c cs)) (s₁ ++ s₂)

/-- A render call on a tree produces a string: `to_html` relationally. -/
abbrev RendersTo (t : BaseTag) (s : String) : Prop := Emits (RTerm.tag t) s

mutual
/-- Every node emits its functional rendering. -/
def emitsTag : (t : BaseTag) → Emits (RTerm.tag t) (BaseTag.to_html t)
  | BaseTag.SelfClosingTag tag attr class_ => Emits.selfClosing tag attr class_
  | BaseTag.FullTag tag ch class_ attr =>
      Emits.fullTag tag ch class_ attr (children_to_html ch) (emitsChildren ch)
  | BaseTag.FullTagWithPrefix tag ch class_ attr pfx =>
      Emits.withPfx tag ch class_ attr pfx (full_tag_render tag (children_to_html ch) class_ attr)
        (Emits.fullTag tag ch class_ attr (children_to_html ch) (emitsChildren ch))
  | BaseTag.DangerousHTML m => Emits.dangerous m

/-- Every children value emits its functional rendering. -/
def emitsChildren : (c : FullTagChildren) → Emits (RTerm.children c) (children_to_html c)
  | FullTagChildren.node t => Emits.chNode t (BaseTag.to_html t) (emitsTag t)
  | FullTagChildren.str s => Emits.chStr s
  | FullTagChildren.seq cs => Emits.chSeq cs (child_list_to_html cs) (emitsChildList cs)
  | FullTagChildren.other => Emits.chOther

/-- Every iterable element emits its functional rendering. -/
def emitsChild : (c : ChildItem) → Emits (RTerm.child c) (child_to_html c)
  | ChildItem.node t => Emits.cNode t (BaseTag.to_html t) (emitsTag t)
  | ChildItem.str s => Emits.cStr s
  | ChildItem.other => Emits.cOther

/-- Every children iterable emits its functional rendering. -/
def emitsChildList : (cs : ChildList) → Emits (RTerm.clist cs) (child_list_to_html cs)
  | ChildList.nil => Emits.lNil
  | ChildList.cons c cs =>
      Emits.lCons c cs (child_to_html c) (child_list_to_html cs) (emitsChild c) (emitsChildList cs)
end

/-- The serialization relation is deterministic: a term emits one string. -/
theorem emits_det {r : RTerm} {s₁ : String} (h₁ : Emits r s₁) :
    ∀ s₂ : String, Emits r s₂ → s₁ = s₂ := by
  induction h₁ with
  | selfClosing tag attr class_ =>
    intro s₂ h₂; cases h₂; rfl
  | fullTag tag ch class_ attr s hs ih =>
    intro s₂ h₂
    cases h₂ with
    | fullTag _ _ _ _ s' hs' => rw [ih s' hs']
  | withPfx tag ch class_ attr pfx s hs ih =>
    intro s₂ h₂
    cases h₂ with
    | withPfx _ _ _ _ _ s' hs' => rw [ih s' hs']
  | dangerous m => intro s₂ h₂; cases h₂; rfl
  | chNode t s hs ih =>
    intro s₂ h₂
    cases h₂ with
    | chNode _ _ hs' => exact ih _ hs'
  | chStr s => intro s₂ h₂; cases h₂; rfl
  | chSeq cs s hs ih =>
    intro s₂ h₂
    cases h₂ with
    | chSeq _ _ hs' => exact ih _ hs'
  | chOther => intro s₂ h₂; cases h₂; rfl
  | cNode t s hs ih =>
    intro s₂ h₂
    cases h₂ with
    | cNode _ _ hs' => exact ih _ hs'
  | cStr s => intro s₂ h₂; cases h₂; rfl
  | cOther => intro s₂ h₂; cases h₂; rfl
  | lNil => intro s₂ h₂; cases h₂; rfl
  | lCons c cs a b ha hb iha ihb =>
    intro s₂ h₂
    cases h₂ with
    | lCons _ _ a' b' ha' hb' => rw [iha a' ha', ihb b' hb']

/-- The length of a rendered full tag: the body plus the fixed markup around
it (at least five characters even for an empty tag name). -/
theorem full_tag_render_length (tag body : String) (class_ : Class) (attr : Attr) :
    (full_tag_render tag body class_ attr).length
      = body.length + ((class_to_html class_).length + (attr_to_html attr).length
          + 2 * tag.length + 5) := by
  simp only [full_tag_render, String.length_append,
    show ("<" : String).length = 1 from rfl,
    show (">" : String).length = 1 from rfl,
    show ("</" : String).length = 2 from rfl]
  omega

/-- The property the spec claims: some constructor of the node type wraps a
bare child list and renders exactly those children, with nothing around
them. -/
def FragmentVariantExists : Prop :=
  ∃ mk : ChildList → BaseTag, ∀ cs : ChildList,
    childrenOf (mk cs) = some (FullTagChildren.seq cs)
      ∧ BaseTag.to_html (mk cs) = child_list_to_html cs

/-- C2 — counterexample.  tags.py has no Fragment variant: no node value can
both store a bare child list and render it with nothing wrapped around it;
already at the empty child list the two node classes that store children
render strictly more than the (empty) children rendering. -/
theorem no_fragment_variant : ¬ FragmentVariantExists := by
  rintro ⟨mk, h⟩
  obtain ⟨hc, hr⟩ := h ChildList.nil
  cases hm : mk ChildList.nil with
  | SelfClosingTag tag attr class_ => rw [hm] at hc; simp [childrenOf] at hc
  | DangerousHTML m => rw [hm] at hc; simp [childrenOf] at hc
  | FullTag tag ch class_ attr =>
    rw [hm] at hc hr
    simp only [childrenOf, Option.some.injEq] at hc
    subst hc
    have hl := congrArg String.length hr
    rw [show BaseTag.to_html
          (BaseTag.FullTag tag (FullTagChildren.seq ChildList.nil) class_ attr)
        = full_tag_render tag (children_to_html (FullTagChildren.seq ChildList.nil))
            class_ attr from rfl,
      full_tag_render_length] at hl
    simp only [children_to_html, child_list_to_html,
      show ("" : String).length = 0 from rfl] at hl
    omega
  | FullTagWithPrefix tag ch class_ attr pfx =>
    rw [hm] at hc hr
    simp only [childrenOf, Option.some.injEq] at hc
    subst hc
    have hl := congrArg String.length hr
    rw [show BaseTag.to_html
          (BaseTag.FullTagWithPrefix tag (FullTagChildren.seq ChildList.nil) class_ attr pfx)
        = pfx ++ full_tag_render tag
            (children_to_html (FullTagChildren.seq ChildList.nil)) class_ attr from rfl,
      String.length_append, full_tag_render_length] at hl
    simp only [children_to_html, child_list_to_html,
      show ("" : String).length = 0 from rfl] at hl
    omega


/-- Joining a non-empty list of strings: head, then the joined tail. -/
theorem string_join_cons (s : String) (l : List String) :
    String.join (s :: l) = s ++ String.join l := by
  apply String.ext
  simp [String.join_eq, String.data_append]

/-- `escapeList` is the characterwise map joined in order. -/
theorem escapeList_eq_join_map (l : List Char) :
    escapeList l = String.join (l.map escapeChar) := by
  induction l with
  | nil => rfl
  | cons c cs ih => simp [escapeList, string_join_cons, ih]

/-- Claim C1: the escaping function replaces exactly the five
HTML-significant characters `&`, `<`, `>`, `"`, `'` and keeps every other
character; it is applied exactly once to a text child and once to a string
attribute value, and never to raw markup, tag names, attribute names or the
literal prefix. -/
theorem escape_contract :
    (escape "&" = "&amp;" ∧ escape "<" = "&lt;" ∧ escape ">" = "&gt;"
      ∧ escape (String.singleton quoteChar) = "&quot;"
      ∧ escape (String.singleton aposChar) = "&#x27;")
    ∧ (∀ c : Char, c ≠ '&' → c ≠ '<' → c ≠ '>' → c ≠ quoteChar → c ≠ aposChar →
        escapeChar c = String.singleton c)
    ∧ (∀ s : String, escape s = String.join (s.data.map escapeChar))
    ∧ (∀ tag s class_ attr,
        BaseTag.to_html (BaseTag.FullTag tag (FullTagChildren.str s) class_ attr)
          = "<" ++ tag ++ class_to_html class_ ++ attr_to_html attr ++ ">"
              ++ escape s ++ "</" ++ tag ++ ">")
    ∧ (∀ k v rest, attr_to_html ((k, AttrVal.str v) :: rest)
        = " " ++ k ++ "=\"" ++ escape v ++ "\"" ++ attr_to_html rest)
    ∧ (∀ m, BaseTag.to_html (BaseTag.DangerousHTML m) = m)
    ∧ (∀ tag ch class_ attr pfx,
        BaseTag.to_html (BaseTag.FullTagWithPrefix tag ch class_ attr pfx)
          = pfx ++ BaseTag.to_html (BaseTag.FullTag tag ch class_ attr)) := by
  refine ⟨⟨by decide, by decide, by decide, by decide, by decide⟩, ?_, ?_, ?_, ?_, ?_, ?_⟩
  · intro c h1 h2 h3 h4 h5
    simp [escapeChar, h1, h2, h3, h4, h5]
  · intro s
    exact escapeList_eq_join_map s.data
  · intro tag s class_ attr
    rfl
  · intro k v rest
    simp [attr_to_html, String.append_assoc]
  · intro m
    rfl
  · intro tag ch class_ attr pfx
    rfl

/-- Claim C1 witness: a character outside the escaped five passes through. -/
theorem escape_contract_witness : escapeChar 'a' = String.singleton 'a' :=
  escape_contract.2.1 'a' (by decide) (by decide) (by decide) (by decide) (by decide)

/-- Claim C2 (amended): every node that stores a children value renders it
enclosed between a start and an end tag — its rendering is never just the
children's rendering, so no variant behaves as a bare Fragment. -/
theorem children_always_wrapped (t : BaseTag) (ch : FullTagChildren)
    (h : childrenOf t = some ch) : BaseTag.to_html t ≠ children_to_html ch := by
  cases t with
  | SelfClosingTag tag attr class_ => simp [childrenOf] at h
  | DangerousHTML m => simp [childrenOf] at h
  | FullTag tag ch' class_ attr =>
    simp only [childrenOf, Option.some.injEq] at h
    subst h
    intro he
    have hl := congrArg String.length he
    rw [show BaseTag.to_html (BaseTag.FullTag tag ch' class_ attr)
          = full_tag_render tag (children_to_html ch') class_ attr from rfl,
      full_tag_render_length] at hl
    omega
  | FullTagWithPrefix tag ch' class_ attr pfx =>
    simp only [childrenOf, Option.some.injEq] at h
    subst h
    intro he
    have hl := congrArg String.length he
    rw [show BaseTag.to_html (BaseTag.FullTagWithPrefix tag ch' class_ attr pfx)
          = pfx ++ full_tag_render tag (children_to_html ch') class_ attr from rfl,
      String.length_append, full_tag_render_length] at hl
    omega

/-- Claim C2 witness: a concrete div around a text child renders more than
the text alone. -/
theorem children_always_wrapped_witness :
    BaseTag.to_html (BaseTag.FullTag "div" (FullTagChildren.str "x") (Class.seq []) [])
      ≠ children_to_html (FullTagChildren.str "x") :=
  children_always_wrapped
    (BaseTag.FullTag "div" (FullTagChildren.str "x") (Class.seq []) [])
    (FullTagChildren.str "x") rfl

/-- Claim C3 — counterexample: a tree whose children argument is a value of
an entirely wrong type (neither node, string nor iterable; `other`) is built
without any failure and still renders, at render time, as an empty element —
construction does not fail fast. -/
theorem bad_children_value_builds_and_renders :
    childrenOf (BaseTag.FullTag "div" FullTagChildren.other (Class.seq []) [])
        = some FullTagChildren.other
      ∧ BaseTag.to_html (BaseTag.FullTag "div" FullTagChildren.other (Class.seq []) [])
        = "<div></div>" :=
  ⟨rfl, by decide⟩

/-- Claim C3 (amended): construction performs no type validation; a
wrong-typed children value renders like an empty child list, and a
wrong-typed attribute value renders like the absent marker (a bare name), in
both cases without error. -/
theorem construction_never_validates :
    (∀ tag class_ attr,
        BaseTag.to_html (BaseTag.FullTag tag FullTagChildren.other class_ attr)
          = BaseTag.to_html (BaseTag.FullTag tag (FullTagChildren.seq ChildList.nil) class_ attr))
    ∧ (∀ k rest, attr_to_html ((k, AttrVal.other) :: rest)
        = attr_to_html ((k, AttrVal.none) :: rest)) :=
  ⟨fun _ _ _ => rfl, fun _ _ => rfl⟩

/-- Claim C4: attribute rendering emits, per entry in insertion order, a
space and the unescaped name, then `="` + escaped value + `"` for a string
value and nothing further for the absent marker; the empty mapping emits
nothing, and the output over a concatenation of entries is the concatenation
of the outputs (one segment per entry, in order). -/
theorem attr_render_contract :
    attr_to_html [] = ""
    ∧ (∀ k v rest, attr_to_html ((k, AttrVal.str v) :: rest)
        = " " ++ k ++ "=\"" ++ escape v ++ "\"" ++ attr_to_html rest)
    ∧ (∀ k rest, attr_to_html ((k, AttrVal.none) :: rest) = " " ++ k ++ attr_to_html rest)
    ∧ (∀ xs ys : Attr, attr_to_html (xs ++ ys) = attr_to_html xs ++ attr_to_html ys) := by
  refine ⟨rfl, ?_, ?_, ?_⟩
  · intro k v rest
    simp [attr_to_html, String.append_assoc]
  · intro k rest
    simp [attr_to_html]
  · intro xs ys
    induction xs with
    | nil => simp [attr_to_html]
    | cons e rest ih =>
      obtain ⟨k, v⟩ := e
      simp [attr_to_html, ih, String.append_assoc]

/-- Claim C5: a single class string is used as-is (unescaped), an iterable is
joined with single spaces in order; an empty result emits nothing, a
non-empty one emits ` class="..."` placed right after the tag name and before
the other attributes. -/
theorem class_render_contract :
    (∀ s : String, s ≠ "" → class_to_html (Class.str s) = " class=\"" ++ s ++ "\"")
    ∧ class_to_html (Class.str "") = ""
    ∧ class_to_html (Class.seq []) = ""
    ∧ (∀ ss, class_to_html (Class.seq ss)
        = class_to_html (Class.str (String.intercalate " " ss)))
    ∧ (∀ tag ch class_ attr, BaseTag.to_html (BaseTag.FullTag tag ch class_ attr)
        = "<" ++ tag ++ class_to_html class_ ++ attr_to_html attr ++ ">"
            ++ children_to_html ch ++ "</" ++ tag ++ ">")
    ∧ (∀ tag attr class_, BaseTag.to_html (BaseTag.SelfClosingTag tag attr class_)
        = "<" ++ tag ++ class_to_html class_ ++ attr_to_html attr ++ "/>") := by
  refine ⟨?_, rfl, rfl, ?_, ?_, ?_⟩
  · intro s h
    simp [class_to_html, h]
  · intro ss
    rfl
  · intro tag ch class_ attr
    rfl
  · intro tag attr class_
    rfl

/-- Claim C5 witness: a concrete non-empty class string passes through
verbatim. -/
theorem class_render_contract_witness :
    class_to_html (Class.str "a b") = " class=\"a b\"" :=
  class_render_contract.1 "a b" (by decide)

/-- Claim C6: in a children iterable, a node child is rendered, a string
child is escaped, and any other element is silently skipped, in iteration
order; in particular the sequence [node, "text", other] renders the node
followed by the escaped text and omits the third element. -/
theorem child_seq_contract :
    (∀ t cs, child_list_to_html (ChildList.cons (ChildItem.node t) cs)
        = BaseTag.to_html t ++ child_list_to_html cs)
    ∧ (∀ s cs, child_list_to_html (ChildList.cons (ChildItem.str s) cs)
        = escape s ++ child_list_to_html cs)
    ∧ (∀ cs, child_list_to_html (ChildList.cons ChildItem.other cs) = child_list_to_html cs)
    ∧ (∀ t, children_to_html (FullTagChildren.seq
          (ChildList.cons (ChildItem.node t) (ChildList.cons (ChildItem.str "text")
            (ChildList.cons ChildItem.other ChildList.nil))))
        = BaseTag.to_html t ++ "text") := by
  refine ⟨fun t cs => rfl, fun s cs => rfl, ?_, ?_⟩
  · intro cs
    simp [child_list_to_html, child_to_html]
  · intro t
    have h : escape "text" = "text" := by decide
    simp [children_to_html, child_list_to_html, child_to_html, h]

/-- Claim C7: the minimal document (head with one meta charset="utf-8", body
with one paragraph "Hi & bye") renders to exactly the expected doctype-led
string, ampersand escaped, with no extra whitespace. -/
theorem minimal_document_render :
    BaseTag.to_html (Html
      (FullTagChildren.seq (ChildList.cons
        (ChildItem.node (Head (FullTagChildren.node
            (Meta (Class.seq []) [("charset", AttrVal.str "utf-8")])) (Class.seq []) []))
        (ChildList.cons
          (ChildItem.node (Body (FullTagChildren.node
              (P (FullTagChildren.str "Hi & bye") (Class.seq []) [])) (Class.seq []) []))
          ChildList.nil)))
      (Class.seq []) [])
    = "<!DOCTYPE html><html><head><meta charset=\"utf-8\"/></head><body><p>Hi &amp; bye</p></body></html>" := by
  decide

/-- Claim C8: whatever the attributes, class value and children, the
document-root constructor renders as the verbatim prefix `<!DOCTYPE html>`
followed by the ordinary rendering of a plain html element. -/
theorem doctype_prefix_once :
    ∀ ch class_ attr, BaseTag.to_html (Html ch class_ attr)
      = "<!DOCTYPE html>" ++ BaseTag.to_html (BaseTag.FullTag "html" ch class_ attr) :=
  fun _ _ _ => rfl

/-- Claim C9: the serialization of a tree is deterministic — any two runs of
the render relation on the same tree produce the same string, and the
functional rendering is one such run, so two successive render calls agree
byte for byte. -/
theorem render_deterministic :
    (∀ (t : BaseTag) (s₁ s₂ : String), RendersTo t s₁ → RendersTo t s₂ → s₁ = s₂)
    ∧ (∀ t : BaseTag, RendersTo t (BaseTag.to_html t)) :=
  ⟨fun _ _ _ h₁ h₂ => emits_det h₁ _ h₂, fun t => emitsTag t⟩

/-- Claim C9 witness: two renders of a concrete node agree. -/
theorem render_deterministic_witness :
    BaseTag.to_html (BaseTag.DangerousHTML "x") = BaseTag.to_html (BaseTag.DangerousHTML "x") :=
  render_deterministic.1 (BaseTag.DangerousHTML "x") _ _
    (render_deterministic.2 (BaseTag.DangerousHTML "x"))
    (render_deterministic.2 (BaseTag.DangerousHTML "x"))

/-- Claim C10: an attribute value that is neither a string nor the absent
marker None renders as the bare attribute name with no value part, exactly as
None does, and raises no error. -/
theorem attr_non_str_value_bare :
    ∀ k rest, attr_to_html ((k, AttrVal.other) :: rest) = " " ++ k ++ attr_to_html rest
      ∧ attr_to_html ((k, AttrVal.other) :: rest) = attr_to_html ((k, AttrVal.none) :: rest) := by
  intro k rest
  exact ⟨by simp [attr_to_html], rfl⟩

end Nate
